import Mathlib

/-!
Shallow embedding of `paper-utils` (src/paper_utils/utils.py and
src/paper_utils/latex.py): the JSON-to-table schema normalizer
(`extract_columns_and_values`, `json_to_df`) and the LaTeX table renderer
(`json_to_latex_table_with_multirow`), together with theorems settling the
frozen claims about them.

Conventions of the embedding:
* Python scalar values are `PyVal`; a float is either NaN or a finite value
  modelled as a rational (no claim depends on binary floating point rounding).
* A pandas cell is `Option PyVal`: `none` is a cell that was never written,
  which pandas represents as the float NaN (`cellPy` realises that).
* Python dicts keyed by column paths are association lists preserving
  insertion order, with dict-update (overwrite in place) semantics.
* Python `set` iteration order is unspecified; the embedding fixes it to
  first-insertion order.  No theorem below depends on the order of columns
  whose sort keys tie, which is the only place the set order is observable.
* Exceptions are `Except PdErr`; `PdErr` enumerates the exceptions the
  embedded code paths can actually raise (a pandas `TypeError` from
  `MultiIndex.from_tuples` on an empty list, and a Python `ValueError` from
  a numeric format specifier with a negative precision).
-/

/-- Exceptions raised by the embedded code paths.  `typeErrorEmptyTuples` is
the pandas `TypeError` ("Cannot infer number of levels from empty list")
raised by `pd.MultiIndex.from_tuples([])`; `valueErrorBadFormat` is the
Python `ValueError` raised by `f"{x:.{p}f}"` when `p` is negative. -/
inductive PdErr where
  | typeErrorEmptyTuples
  | valueErrorBadFormat
  deriving DecidableEq

/-- The Python exception class name of each embedded error. -/
def pdErrName : PdErr → String
  | .typeErrorEmptyTuples => "TypeError"
  | .valueErrorBadFormat => "ValueError"

/-- Python scalar values as they occur in the JSON records and DataFrame
cells.  `vNan` is the float NaN (note it IS a float for `isinstance`);
`vFloat` is a finite float modelled exactly as a rational. -/
inductive PyVal where
  | vStr (s : String)
  | vInt (n : Int)
  | vBool (b : Bool)
  | vNone
  | vNan
  | vFloat (q : ℚ)
  deriving DecidableEq

/-- Python `isinstance(value, float)` (NaN is a float). -/
def isFloatV : PyVal → Bool
  | .vNan => true
  | .vFloat _ => true
  | _ => false

/-- pandas `pd.isna` on a scalar: true for NaN and for `None`. -/
def pdIsna : PyVal → Bool
  | .vNan => true
  | .vNone => true
  | _ => false

/-- Python `==` between the scalar values, as used when merging runs:
NaN compares unequal to everything (including itself), numbers compare
across `int`/`bool`/`float`, the rest compare within their own type. -/
def pyEq : PyVal → PyVal → Bool
  | .vStr a, .vStr b => a == b
  | .vInt a, .vInt b => a == b
  | .vBool a, .vBool b => a == b
  | .vNone, .vNone => true
  | .vFloat a, .vFloat b => a == b
  | .vInt a, .vFloat b => ((a : ℚ) == b)
  | .vFloat a, .vInt b => (a == (b : ℚ))
  | .vBool a, .vInt b => ((if a then (1 : Int) else 0) == b)
  | .vInt a, .vBool b => (a == (if b then (1 : Int) else 0))
  | .vBool a, .vFloat b => ((if a then (1 : ℚ) else 0) == b)
  | .vFloat a, .vBool b => (a == (if b then (1 : ℚ) else 0))
  | _, _ => false

/-- Python `str(value)` for the scalar values (`str(float)` is only a
stand-in: the renderer never reaches it for floats, since the
`isinstance(value, float)` branch is checked first). -/
def pyStr : PyVal → String
  | .vStr s => s
  | .vInt n => toString n
  | .vBool b => if b then "True" else "False"
  | .vNone => "None"
  | .vNan => "nan"
  | .vFloat q => toString q

/-- Round a rational to the nearest integer, ties to even (the rounding of
Python's fixed-point float formatting). -/
def roundHalfEven (q : ℚ) : Int :=
  let f : Int := q.floor
  let r : ℚ := q - (f : ℚ)
  if r < 1/2 then f
  else if 1/2 < r then f + 1
  else if f % 2 = 0 then f else f + 1

/-- Left-pad a digit string with zeros to length `n`. -/
def padZeros (s : String) (n : Nat) : String :=
  String.mk (List.replicate (n - s.length) '0') ++ s

/-- Fixed-point decimal rendering of a finite float with `p` digits after
the decimal point (Python `f"{x:.{p}f}"` for `p ≥ 0`). -/
def formatFixed (q : ℚ) (p : Nat) : String :=
  let scaled := roundHalfEven (q * (10 : ℚ) ^ p)
  let m := scaled.natAbs
  let ip := m / 10 ^ p
  let fp := m % 10 ^ p
  (if scaled < 0 then "-" else "") ++ toString ip ++
    (if p = 0 then "" else "." ++ padZeros (toString fp) p)

/-- Python `f"{value:.{prec}f}"` on a float value: a negative precision
makes the format specifier invalid, raising `ValueError` before the value
is looked at; NaN renders as `"nan"`. -/
def formatFloatSpec (v : PyVal) (prec : Int) : Except PdErr String :=
  if prec < 0 then .error .valueErrorBadFormat
  else
    match v with
    | .vNan => .ok "nan"
    | .vFloat q => .ok (formatFixed q prec.toNat)
    | _ => .ok (pyStr v)

/-- Cell formatting of `json_to_latex_table_with_multirow`
(latex.py lines 286-291): `isinstance(value, float)` is checked BEFORE
`pd.isna(value)`, so NaN (hence any never-written cell) takes the float
branch and renders as `"nan"`; only a non-float NA (an explicit `None`)
reaches the empty-string branch. -/
def formatValue (v : PyVal) (prec : Int) : Except PdErr String :=
  if isFloatV v then formatFloatSpec v prec
  else if pdIsna v then .ok ""
  else .ok (pyStr v)

mutual
/-- Nested JSON values: a scalar leaf or a nested mapping. -/
inductive JVal where
  | scalar (v : PyVal)
  | obj (fields : JFields)
/-- The ordered field list of a JSON mapping (Python dicts preserve
declaration order). -/
inductive JFields where
  | nil
  | cons (key : String) (val : JVal) (rest : JFields)
end

/-- Build a `JFields` from a list literal. -/
def jF : List (String × JVal) → JFields
  | [] => .nil
  | (k, v) :: rest => .cons k v (jF rest)

/-- Scalar leaf shorthand. -/
def jS (v : PyVal) : JVal := .scalar v

/-- Nested-object shorthand. -/
def jO (l : List (String × JVal)) : JVal := .obj (jF l)

/-- The key at 0-based position `j` of a field list. -/
def keyAt : JFields → Nat → Option String
  | .nil, _ => none
  | .cons k _ _, 0 => some k
  | .cons _ _ rest, n + 1 => keyAt rest n

/-- Python `item[k]` / `k in item` on a record's top level. -/
def fieldLookup : JFields → String → Option JVal
  | .nil, _ => none
  | .cons k v rest, k0 => if k == k0 then some v else fieldLookup rest k0

/-- A column path: the key sequence from the record root to a leaf. -/
abbrev ColPath := List String

/-- The global ordering-key table `path_order`: an insertion-ordered map
from paths to `(depth of parent, sibling index at first introduction)`. -/
abbrev PO := List (ColPath × (Nat × Nat))

/-- Insertion-ordered-dict lookup. -/
def aFind {κ α : Type} [BEq κ] (l : List (κ × α)) (k : κ) : Option α :=
  (l.find? (fun e => e.1 == k)).map (fun e => e.2)

/-- Insertion-ordered-dict write: overwrite in place, else append. -/
def aInsert {κ α : Type} [BEq κ] (l : List (κ × α)) (k : κ) (v : α) :
    List (κ × α) :=
  match l with
  | [] => [(k, v)]
  | (k0, v0) :: rest =>
      if k0 == k then (k0, v) :: rest else (k0, v0) :: aInsert rest k v

/-- `path_order` is only ever written with insert-if-absent semantics
(utils.py lines 21-22): the first sighting of a path fixes its key. -/
def poInsertIfAbsent (po : PO) (p : ColPath) (k : Nat × Nat) : PO :=
  match aFind po p with
  | some _ => po
  | none => po ++ [(p, k)]

/-- The per-record flattened dict `flat_dict` from paths to leaf values. -/
abbrev Flat := List (ColPath × PyVal)

mutual
/-- One key's value in `extract_columns_and_values` (utils.py lines 24-33):
a scalar leaf appends its path to `columns` and writes `flat_dict`; a
nested mapping recurses with sibling index reset to 0. -/
def extractV (v : JVal) (curPath : ColPath) (cols : List ColPath) (flat : Flat)
    (po : PO) : List ColPath × Flat × PO :=
  match v with
  | .scalar s => (cols ++ [curPath], aInsert flat curPath s, po)
  | .obj sub => extractF sub 0 curPath cols flat po
/-- `extract_columns_and_values` (utils.py lines 6-35, identical inline
copy in latex.py lines 56-85): `extractF fs idx pfx cols flat po`
processes the fields `fs` of one mapping, whose keys start at sibling
index `idx` under path prefix `pfx`; `cols`, `flat` and `po` are the
accumulators threaded exactly as the Python recursion threads
`columns`, `flat_dict` and `path_order`. -/
def extractF (fs : JFields) (idx : Nat) (pfx : ColPath) (cols : List ColPath)
    (flat : Flat) (po : PO) : List ColPath × Flat × PO :=
  match fs with
  | .nil => (cols, flat, po)
  | .cons k v rest =>
      let curPath := pfx ++ [k]
      let po1 := poInsertIfAbsent po curPath (pfx.length, idx)
      let r := extractV v curPath cols flat po1
      extractF rest (idx + 1) pfx r.1 r.2.1 r.2.2
end

/-- One record's extraction with fresh `columns`/`flat_dict` accumulators
and the shared `path_order`. -/
def extractRecord (r : JFields) (po : PO) : List ColPath × Flat × PO :=
  extractF r 0 [] [] [] po

/-- Set-union accumulation of columns (`all_columns.update(columns)`),
with Python's unspecified set order fixed to first-insertion order. -/
def addUniqueList (l : List ColPath) (xs : List ColPath) : List ColPath :=
  xs.foldl (fun acc x => if acc.contains x then acc else acc ++ [x]) l

/-- The first discovery pass shared by `json_to_df` (utils.py lines 39-54)
and the renderer (latex.py lines 87-97): all columns, all flattened
records, and the ordering-key table. -/
def discover (data : List JFields) : List ColPath × List Flat × PO :=
  data.foldl
    (fun acc r =>
      let e := extractRecord r acc.2.2
      (addUniqueList acc.1 e.1, acc.2.1 ++ [e.2.1], e.2.2))
    ([], [], [])

/-- `max(len(col) for col in all_columns) if all_columns else 0`. -/
def maxDepthOf (cols : List ColPath) : Nat :=
  cols.foldl (fun m c => max m c.length) 0

/-- Pad a column path with trailing empty strings to depth `d`. -/
def padTo (d : Nat) (c : ColPath) : ColPath :=
  c ++ List.replicate (d - c.length) ""

/-- `col[:len(col) - col.count('')]`: strip as many trailing segments as
there are empty-string entries anywhere in the path. -/
def stripKeyPath (c : ColPath) : ColPath :=
  c.take (c.length - c.countP (fun s => s == ""))

/-- `custom_sort_key` (utils.py lines 69-74): the ordering key of a
normalized column, `none` standing for `(inf, inf)`. -/
def sortKeyOf (po : PO) (c : ColPath) : Option (Nat × Nat) :=
  aFind po (stripKeyPath c)

/-- Comparison of ordering keys as Python compares the tuples, with
`none` = `(float('inf'), float('inf'))` sorting after everything. -/
def keyLE : Option (Nat × Nat) → Option (Nat × Nat) → Bool
  | some a, some b => Nat.blt a.1 b.1 || (a.1 == b.1 && Nat.ble a.2 b.2)
  | some _, none => true
  | none, some _ => false
  | none, none => true

/-- Stable insert for the stable sort (Python `sorted`): `x` goes before
the first element not strictly below it. -/
def insSorted {α : Type} (le : α → α → Bool) (x : α) : List α → List α
  | [] => [x]
  | y :: ys =>
      if le y x && !(le x y) then y :: insSorted le x ys else x :: y :: ys

/-- Stable sort (insertion sort), standing in for Python's stable
`sorted`. -/
def stableSort {α : Type} (le : α → α → Bool) (l : List α) : List α :=
  l.foldr (insSorted le) []

/-- The final sorted, normalized column sequence (utils.py lines 59-76,
latex.py lines 102-119). -/
def sortedColumnsOf (data : List JFields) : List ColPath :=
  let d := discover data
  let maxD := maxDepthOf d.1
  stableSort (fun a b => keyLE (sortKeyOf d.2.2 a) (sortKeyOf d.2.2 b))
    (d.1.map (padTo maxD))

/-- A DataFrame cell: `none` is a never-written cell, which pandas holds
as float NaN; `df.iloc` hence yields `vNan` for it. -/
def cellPy (c : Option PyVal) : PyVal := c.getD .vNan

/-- The cell of one flattened record at normalized column `c`
(the fill loop `df.loc[i, norm_col] = value`, last write wins). -/
def cellAt (flat : Flat) (maxD : Nat) (c : ColPath) : Option PyVal :=
  ((flat.filter (fun e => padTo maxD e.1 == c)).getLast?).map (fun e => e.2)

-- A quick sanity example kept as a theorem-free smoke test of discovery.
example :
    sortedColumnsOf
      [jF [("a", jO [("x", jS (.vInt 1)), ("y", jS (.vInt 2))])],
       jF [("a", jO [("x", jS (.vInt 3)), ("y", jS (.vInt 4))])]] =
      [["a", "x"], ["a", "y"]] := by rfl

/-- A vertical merge run: `(start, length, value)` as built in
latex.py lines 234-272. -/
structure Run where
  start : Nat
  len : Nat
  val : PyVal
  deriving DecidableEq

/-- `runs = [(i, 1, col_values[i]) for i in range(len(col_values))]`. -/
def initRuns : List PyVal → Nat → List Run
  | [], _ => []
  | v :: vs, i => ⟨i, 1, v⟩ :: initRuns vs (i + 1)

/-- `values_match` (latex.py line 243): both NA, or Python-equal. -/
def valuesMatch (a b : PyVal) : Bool :=
  (pdIsna a && pdIsna b) || pyEq a b

/-- The `can_merge` scan (latex.py lines 245-262): walk the declared
multirow column names from the left; reaching the current column allows
the merge, while finding an earlier-declared column (present in
`multirow_cols` and `multirow_groups`) with a run starting at `start2`
forbids it. -/
def canMergeAt (mrCols : List (String × Nat)) (groups : List (String × List Run))
    (colName : String) (start2 : Nat) : List String → Bool
  | [] => true
  | n :: ns =>
      if n == colName then true
      else
        match aFind mrCols n, aFind groups n with
        | some _, some runs =>
            if runs.any (fun r => r.start == start2) then false
            else canMergeAt mrCols groups colName start2 ns
        | _, _ => canMergeAt mrCols groups colName start2 ns

/-- The run-merging while-loop (latex.py lines 237-269): adjacent runs
merge when their values match and no earlier-declared column starts a
run at the second run's start row; otherwise the scan advances. -/
def mergeFrom (canM : Nat → Bool) : Run → List Run → List Run
  | r, [] => [r]
  | r1, r2 :: rest =>
      if valuesMatch r1.val r2.val && canM r2.start then
        mergeFrom canM ⟨r1.start, r1.len + r2.len, r1.val⟩ rest
      else r1 :: mergeFrom canM r2 rest

/-- `multirow_cols` (latex.py lines 209-216): for each declared name, the
first column index whose path mentions the name at any level. -/
def findMultirowCols (mrColumns : List String) (cols : List ColPath) :
    List (String × Nat) :=
  mrColumns.foldl
    (fun acc name =>
      match cols.findIdx? (fun c => c.contains name) with
      | some i => aInsert acc name i
      | none => acc)
    []

/-- `multirow_groups` (latex.py lines 220-272): process the declared
columns in declaration order, each column's runs computed with the
earlier columns' finished runs visible to `can_merge`. -/
def computeGroups :
    List String → List String → List (String × Nat) →
    List (List (Option PyVal)) → List (String × List Run) →
    List (String × List Run)
  | [], _, _, _, groups => groups
  | name :: rest, declared, mrCols, rows, groups =>
      match aFind mrCols name with
      | none => computeGroups rest declared mrCols rows groups
      | some idx =>
          let vals := rows.map (fun r => cellPy (r.getD idx none))
          let runs :=
            match initRuns vals 0 with
            | [] => []
            | r :: rs =>
                mergeFrom (fun s => canMergeAt mrCols groups name s declared) r rs
          computeGroups rest declared mrCols rows (groups ++ [(name, runs)])

/-- The reverse lookup `for name, idx in multirow_cols.items(): if idx ==
col_idx` (latex.py lines 297-301). -/
def mrNameForIdx (mrCols : List (String × Nat)) (i : Nat) : Option String :=
  (mrCols.find? (fun e => e.2 == i)).map (fun e => e.1)

/-- Body-cell rendering for one (row, column) position given its formatted
text (latex.py lines 293-336): a run anchor of length > 1 becomes a
`\multirow` token, an anchor of length 1 the plain text, a row strictly
inside a run the empty string, anything else the plain text. -/
def renderCell (mrCols : List (String × Nat)) (groups : List (String × List Run))
    (colIdx rowIdx : Nat) (formatted : String) : String :=
  match mrNameForIdx mrCols colIdx with
  | none => formatted
  | some name =>
      match aFind groups name with
      | none => formatted
      | some runs =>
          match runs.find? (fun r => r.start == rowIdx) with
          | some r =>
              if Nat.blt 1 r.len then
                "\\multirow\x7b" ++ toString r.len ++ "\x7d\x7b*\x7d\x7b" ++
                  formatted ++ "\x7d"
              else formatted
          | none =>
              if runs.any (fun r =>
                  Nat.blt r.start rowIdx && Nat.blt rowIdx (r.start + r.len)) then
                ""
              else formatted

/-- The per-level label sequence `df.columns.get_level_values(level)`. -/
def levelLabels (cols : List ColPath) (lvl : Nat) : List String :=
  cols.map (fun c => c.getD lvl "")

/-- The span-accumulation loop (latex.py lines 182-194): `cur` and `n` are
`current_value` and `current_span`. -/
def spansLoop (cur : String) (n : Nat) : List String → List (String × Nat)
  | [] => [(cur, n)]
  | x :: xs => if x == cur then spansLoop cur (n + 1) xs
               else (cur, n) :: spansLoop x 1 xs

/-- Header Spans of one hierarchy level: maximal runs of equal consecutive
labels with their widths. -/
def levelSpans (cols : List ColPath) (lvl : Nat) : List (String × Nat) :=
  match levelLabels cols lvl with
  | [] => []
  | v :: vs => spansLoop v 1 vs

/-- One `\multicolumn` token (latex.py line 198). -/
def mcTok (p : String × Nat) : String :=
  "\\multicolumn\x7b" ++ toString p.2 ++ "\x7d\x7bc\x7d\x7b" ++ p.1 ++ "\x7d"

/-- One header line; the leading cell is the index name, which is always
empty here since the DataFrame's index is unnamed (latex.py line 172). -/
def headerLineAt (cols : List ColPath) (lvl : Nat) : String :=
  String.intercalate " & " ("" :: (levelSpans cols lvl).map mcTok) ++ " \\\\"

/-- The header block: one line per level, `\midrule` after the last level
(latex.py lines 175-204). -/
def headerSeg (cols : List ColPath) (maxD : Nat) : List String :=
  (List.range maxD).flatMap
    (fun lvl => [headerLineAt cols lvl] ++
      if lvl == maxD - 1 then ["\\midrule"] else [])

/-- Python `str.lower()` restricted to ASCII, as applied to the
`caption_position` argument. -/
def pyLower (s : String) : String :=
  String.mk (s.data.map (fun c =>
    if 65 ≤ c.toNat ∧ c.toNat ≤ 90 then Char.ofNat (c.toNat + 32) else c))

/-- Python truthiness of an optional string argument (`if caption`,
`if label`): absent or empty is falsy. -/
def pyTruthyS : Option String → Bool
  | none => false
  | some s => !(s == "")

/-- The caption/label block (latex.py lines 151-154 and 348-351): the
caption line, then the label line only if a label is supplied (truthy). -/
def captionSeg (c : String) (lbl : Option String) : List String :=
  ["\\caption\x7b" ++ c ++ "\x7d"] ++
    (if pyTruthyS lbl then ["\\label\x7b" ++ lbl.getD "" ++ "\x7d"] else [])

/-- The opening block (latex.py lines 142-148): `table*` when
`full_width`, else `table`; then `\centering` and optionally `\small`. -/
def beginSeg (fullWidth : Bool) (position : String) (smallFont : Bool) :
    List String :=
  [(if fullWidth then "\\begin\x7btable*\x7d[" else "\\begin\x7btable\x7d[") ++
     position ++ "]"] ++
  ["\\centering"] ++ (if smallFont then ["\\small"] else [])

/-- The unconditional trailing package note (latex.py line 357). -/
def noteLine : String :=
  "% Note: This table requires \\usepackage\x7bbooktabs\x7d and \\usepackage\x7bmultirow\x7d in your LaTeX preamble"

/-- `"c" * n`. -/
def cRep (n : Nat) : String := String.mk (List.replicate n 'c')

/-- The `\begin{tabular}` line (latex.py lines 160-166): the explicit
column format verbatim if supplied (`is None` check, not truthiness),
else one `c` per data column plus one for the row index. -/
def tabularLine (columnFormat : Option String) (nCols : Nat) : String :=
  "\\begin\x7btabular\x7d\x7b" ++
    (match columnFormat with | none => cRep (nCols + 1) | some s => s) ++ "\x7d"

/-- Everything the renderer derives from the data before emitting lines:
the sorted normalized columns, the max depth, the flattened records, the
cell grid, the multirow column index map and the merge runs. -/
structure Prep where
  sortedCols : List ColPath
  maxD : Nat
  flats : List Flat
  rows : List (List (Option PyVal))
  mrCols : List (String × Nat)
  groups : List (String × List Run)

/-- Assemble the renderer's intermediate state from the raw records. -/
def prepOf (data : List JFields) (mrColumns : List String) : Prep :=
  let d := discover data
  let maxD := maxDepthOf d.1
  let sortedCols := sortedColumnsOf data
  let rows := d.2.1.map (fun flat => sortedCols.map (fun c => cellAt flat maxD c))
  let mrCols := findMultirowCols mrColumns sortedCols
  ⟨sortedCols, maxD, d.2.1, rows, mrCols,
   computeGroups mrColumns mrColumns mrCols rows []⟩

/-- The body cell grid (latex.py lines 275-336, without the leading index
cell): every cell is formatted (which can raise for a negative precision)
and then run through the multirow logic, row-major as the loops run. -/
def bodyCellMatrix (data : List JFields) (mrColumns : List String)
    (prec : Int) : Except PdErr (List (List String)) :=
  let p := prepOf data mrColumns
  (List.range p.rows.length).mapM (fun ri =>
    (List.range p.sortedCols.length).mapM (fun ci =>
      (formatValue (cellPy ((p.rows.getD ri []).getD ci none)) prec).map
        (renderCell p.mrCols p.groups ci ri)))

/-- The body lines: row label (the 0-based integer index) joined with the
cells (latex.py lines 275-339). -/
def bodyLinesFrom (matrix : List (List String)) : List String :=
  (List.range matrix.length).map (fun ri =>
    String.intercalate " & " (toString ri :: matrix.getD ri []) ++ " \\\\")

/-- `json_to_latex_table_with_multirow` (latex.py lines 5-359) as the list
of emitted lines (the Python function returns their "\n"-join).  Raises
the pandas `TypeError` when no columns were discovered
(`pd.MultiIndex.from_tuples([])`, latex.py line 122), and propagates the
formatting `ValueError` from the body. -/
def jsonToLatexLines (data : List JFields) (mrColumns : List String)
    (caption lbl : Option String) (position : String) (floatPrecision : Int)
    (columnFormat : Option String) (captionPosition : String)
    (smallFont fullWidth : Bool) : Except PdErr (List String) :=
  let p := prepOf data mrColumns
  if p.sortedCols.isEmpty then .error .typeErrorEmptyTuples
  else
    match bodyCellMatrix data mrColumns floatPrecision with
    | .error e => .error e
    | .ok matrix =>
        let isTop := pyTruthyS caption && (pyLower captionPosition == "top")
        let isBot := pyTruthyS caption && !(pyLower captionPosition == "top")
        .ok (beginSeg fullWidth position smallFont
          ++ (if isTop then captionSeg (caption.getD "") lbl else [])
          ++ [tabularLine columnFormat p.sortedCols.length, "\\toprule"]
          ++ headerSeg p.sortedCols p.maxD
          ++ bodyLinesFrom matrix
          ++ ["\\bottomrule", "\\end\x7btabular\x7d"]
          ++ (if isBot then captionSeg (caption.getD "") lbl else [])
          ++ ["\\end\x7btable\x7d", noteLine])

/-- The row-id collection loop of `json_to_df` (utils.py lines 45-48):
one id per record that contains the (truthy) field, in record order. -/
def collectRowIds (rowIdField : Option String) (data : List JFields) :
    List JVal :=
  match rowIdField with
  | none => []
  | some fld =>
      if fld == "" then []
      else data.filterMap (fun r => fieldLookup r fld)

/-- The row label assigned to each record by the fill loop of `json_to_df`
(utils.py line 89): `row_ids[i] if row_id_field and i < len(row_ids) else
i`.  Note the index into `row_ids` is the record's position, not a
per-record association. -/
def recordLabels (rowIdField : Option String) (data : List JFields) :
    List JVal :=
  let ids := collectRowIds rowIdField data
  (List.range data.length).map (fun i =>
    if pyTruthyS rowIdField && decide (i < ids.length) then
      ids.getD i (.scalar (.vInt 0))
    else .scalar (.vInt i))

/-- The normalized table produced by `json_to_df`; rows are stored
positionally (faithful whenever the row labels are pairwise distinct,
which is the only regime the claims exercise). -/
structure Df where
  columns : List ColPath
  labels : List JVal
  rows : List (List (Option PyVal))

/-- `json_to_df` (utils.py lines 37-99).  With no discovered column the
construction of the MultiIndex (`pd.MultiIndex.from_tuples` on an empty
list, utils.py line 79) raises the pandas `TypeError`. -/
def jsonToDf (rowIdField : Option String) (data : List JFields) :
    Except PdErr Df :=
  let d := discover data
  let cols := sortedColumnsOf data
  if cols.isEmpty then .error .typeErrorEmptyTuples
  else
    .ok ⟨cols, recordLabels rowIdField data,
         d.2.1.map (fun fl => cols.map (cellAt fl (maxDepthOf d.1)))⟩

/-! ### Concrete inputs used by the claim theorems -/

/-- Two records populating disjoint columns, so each row has one
never-written (NaN) cell. -/
def dataC1 : List JFields :=
  [jF [("a", jS (.vStr "u"))], jF [("b", jS (.vStr "v"))]]

/-- One record containing a nested path before a shallow one: the path
`a.x` is introduced (depth-first) before `b`. -/
def dataC2 : List JFields :=
  [jF [("a", jO [("x", jS (.vInt 1))]), ("b", jS (.vInt 2))]]

/-- Two merge-flagged columns with `outer = [X, X, X, Y]` and
`inner = [1, 1, 2, 2]`. -/
def dataC3 : List JFields :=
  [jF [("outer", jS (.vStr "X")), ("inner", jS (.vInt 1))],
   jF [("outer", jS (.vStr "X")), ("inner", jS (.vInt 1))],
   jF [("outer", jS (.vStr "X")), ("inner", jS (.vInt 2))],
   jF [("outer", jS (.vStr "Y")), ("inner", jS (.vInt 2))]]

/-- A single string-valued record, so no float is ever formatted. -/
def dataC5s : List JFields := [jF [("a", jS (.vStr "u"))]]

/-- A single float-valued record. -/
def dataC5f : List JFields := [jF [("a", jS (.vFloat (3 / 2)))]]

/-- A single merge-flagged column with values `[A, A, B, B, B, C]`. -/
def dataC6 : List JFields :=
  [jF [("g", jS (.vStr "A"))], jF [("g", jS (.vStr "A"))],
   jF [("g", jS (.vStr "B"))], jF [("g", jS (.vStr "B"))],
   jF [("g", jS (.vStr "B"))], jF [("g", jS (.vStr "C"))]]

/-- A single record, rendered with a label but no caption. -/
def dataC8 : List JFields := [jF [("a", jS (.vStr "u"))]]

/-- Mixed presence of the row-identifier field: the first record lacks
`id`, the second has `id = "X"`. -/
def dataC9 : List JFields :=
  [jF [("a", jS (.vInt 1))], jF [("id", jS (.vStr "X")), ("a", jS (.vInt 2))]]

/-! ### Claim theorems -/

/-- C1: the claim says an absent/missing cell's body output is the empty
string.  The code disagrees: on `dataC1` the never-written cells (pandas
NaN) hit the `isinstance(value, float)` branch before the `pd.isna`
branch and render as `"nan"` — see the body rows `0 & u & nan` and
`1 & nan & v`.  The `elif pd.isna(value): formatted_value = ""` branch in
the source shows the empty-string rendering is the intent, so this is a
slip in the code (branch order), not in the spec. -/
theorem c1_missing_cell_renders_nan :
    jsonToLatexLines dataC1 [] none none "h" 4 none "bottom" true true =
      .ok ["\\begin\x7btable*\x7d[h]", "\\centering", "\\small",
        "\\begin\x7btabular\x7d\x7bccc\x7d", "\\toprule",
        " & \\multicolumn\x7b1\x7d\x7bc\x7d\x7ba\x7d & \\multicolumn\x7b1\x7d\x7bc\x7d\x7bb\x7d \\\\",
        "\\midrule", "0 & u & nan \\\\", "1 & nan & v \\\\", "\\bottomrule",
        "\\end\x7btabular\x7d", "\\end\x7btable\x7d", noteLine] ∧
    formatValue (cellPy none) 4 = .ok "nan" := by
  exact ⟨rfl, rfl⟩

/-- C2 counterexample: on `dataC2` the path `a.x` is introduced strictly
before the path `b` (records scanned in order, keys in declared order,
depth-first), yet its recorded ordering key `(1, 0)` does NOT sort
strictly before `b`'s key `(0, 1)` — in fact `b` precedes `a.x` in the
final sorted column sequence, refuting the claimed invariant. -/
theorem c2_counterexample :
    aFind (discover dataC2).2.2 (["a", "x"] : ColPath) = some (1, 0) ∧
    aFind (discover dataC2).2.2 (["b"] : ColPath) = some (0, 1) ∧
    keyLE (some (1, 0)) (some (0, 1)) = false ∧
    sortedColumnsOf dataC2 = [["b", ""], ["a", "x"]] := by
  exact ⟨rfl, rfl, rfl, rfl⟩

/-- C3: for merge-flagged columns declared `[outer, inner]` with
`outer = [X, X, X, Y]` and `inner = [1, 1, 2, 2]`, the renderer's merge
runs for `inner` are exactly `[0,2)→1`, `[2,3)→2`, `[3,4)→2`: the run at
row 2 has length 1 and is not merged with row 3 despite the equal value,
because `outer` starts a new run at row 3. -/
theorem c3_cascading_runs :
    (prepOf dataC3 ["outer", "inner"]).groups =
      [("outer", [⟨0, 3, .vStr "X"⟩, ⟨3, 1, .vStr "Y"⟩]),
       ("inner", [⟨0, 2, .vInt 1⟩, ⟨2, 1, .vInt 2⟩, ⟨3, 1, .vInt 2⟩])] := by
  rfl

/-- C4 counterexample: on the empty record list, normalization does fail
synchronously, but with the pandas `TypeError` raised by
`pd.MultiIndex.from_tuples([])` — the code defines no `SchemaError`
class, so the failure is not a `SchemaError`. -/
theorem c4_counterexample :
    jsonToDf none [] = .error .typeErrorEmptyTuples ∧
    pdErrName .typeErrorEmptyTuples ≠ "SchemaError" := by
  exact ⟨rfl, by decide⟩

/-- C4 amended: an empty input record list makes both `json_to_df` and the
renderer fail synchronously with the pandas `TypeError` ("Cannot infer
number of levels from empty list"), whatever the row-id field. -/
theorem c4_empty_input_fails_with_type_error :
    jsonToDf none [] = .error .typeErrorEmptyTuples ∧
    jsonToDf (some "id") [] = .error .typeErrorEmptyTuples ∧
    jsonToLatexLines [] [] none none "h" 4 none "bottom" true true =
      .error .typeErrorEmptyTuples ∧
    pdErrName .typeErrorEmptyTuples = "TypeError" := by
  exact ⟨rfl, rfl, rfl, rfl⟩

/-- C5 counterexample: a render invocation with `float_precision = -1`
does NOT fail when no float value is ever formatted — on the
string-valued `dataC5s` it succeeds and returns the full table. -/
theorem c5_counterexample :
    jsonToLatexLines dataC5s [] none none "h" (-1) none "bottom" true true =
      .ok ["\\begin\x7btable*\x7d[h]", "\\centering", "\\small",
        "\\begin\x7btabular\x7d\x7bcc\x7d", "\\toprule",
        " & \\multicolumn\x7b1\x7d\x7bc\x7d\x7ba\x7d \\\\", "\\midrule",
        "0 & u \\\\", "\\bottomrule", "\\end\x7btabular\x7d",
        "\\end\x7btable\x7d", noteLine] := by
  rfl

/-- C5 amended: there is no `InvalidDirective` error in the code.  A
negative `float_precision` only causes a failure when a float value is
actually formatted, and the failure is the Python `ValueError` raised by
the invalid format specifier — as for any float value with any negative
precision, and for the concrete render of a float cell at precision -1. -/
theorem c5_negative_precision_value_error (p : Int) (hp : p < 0)
    (v : PyVal) (hv : isFloatV v = true) :
    formatValue v p = .error .valueErrorBadFormat ∧
    jsonToLatexLines dataC5f [] none none "h" (-1) none "bottom" true true =
      .error .valueErrorBadFormat := by
  constructor
  · simp only [formatValue, hv, if_true, formatFloatSpec, if_pos hp]
  · rfl

/-- Witness for `c5_negative_precision_value_error` at `p = -1`,
`v = vNan`. -/
theorem c5_negative_precision_value_error_witness :
    ((-1 : Int) < 0 ∧ isFloatV .vNan = true) ∧
    (formatValue .vNan (-1) = .error .valueErrorBadFormat ∧
     jsonToLatexLines dataC5f [] none none "h" (-1) none "bottom" true true =
       .error .valueErrorBadFormat) :=
  ⟨⟨by decide, by decide⟩,
   c5_negative_precision_value_error (-1) (by decide) .vNan (by decide)⟩

/-- C6 counterexample: for the single merge-flagged column
`[A, A, B, B, B, C]` the body grid has anchors of spans 2, 3 and 1 but
only THREE empty follower cells (rows 1, 3 and 4), not four: six rows
minus three anchors leave three followers. -/
theorem c6_counterexample :
    bodyCellMatrix dataC6 ["g"] 4 =
      .ok [["\\multirow\x7b2\x7d\x7b*\x7d\x7bA\x7d"], [""],
           ["\\multirow\x7b3\x7d\x7b*\x7d\x7bB\x7d"], [""], [""], ["C"]] ∧
    ([["\\multirow\x7b2\x7d\x7b*\x7d\x7bA\x7d"], [""],
      ["\\multirow\x7b3\x7d\x7b*\x7d\x7bB\x7d"], [""], [""],
      ["C"]].flatten.count "" ≠ 4) := by
  exact ⟨rfl, by decide⟩

/-- C6 amended: for the single merge-flagged column `[A, A, B, B, B, C]`
the renderer emits exactly 3 merged-cell anchors with spans 2, 3 and 1
(the span-1 run as a plain cell) and exactly 3 empty follower cells, in
row order. -/
theorem c6_merge_runs :
    bodyCellMatrix dataC6 ["g"] 4 =
      .ok [["\\multirow\x7b2\x7d\x7b*\x7d\x7bA\x7d"], [""],
           ["\\multirow\x7b3\x7d\x7b*\x7d\x7bB\x7d"], [""], [""], ["C"]] ∧
    (prepOf dataC6 ["g"]).groups =
      [("g", [⟨0, 2, .vStr "A"⟩, ⟨2, 3, .vStr "B"⟩, ⟨5, 1, .vStr "C"⟩])] ∧
    [["\\multirow\x7b2\x7d\x7b*\x7d\x7bA\x7d"], [""],
     ["\\multirow\x7b3\x7d\x7b*\x7d\x7bB\x7d"], [""], [""],
     ["C"]].flatten.count "" = 3 := by
  exact ⟨rfl, rfl, by decide⟩

/-- C8 counterexample: with a label supplied but no caption, the label is
never emitted — the rendered lines contain no `\label` line at all,
refuting "whenever a label is supplied it is emitted". -/
theorem c8_counterexample :
    jsonToLatexLines dataC8 [] none (some "tab:x") "h" 4 none "bottom" true
        true =
      .ok ["\\begin\x7btable*\x7d[h]", "\\centering", "\\small",
        "\\begin\x7btabular\x7d\x7bcc\x7d", "\\toprule",
        " & \\multicolumn\x7b1\x7d\x7bc\x7d\x7ba\x7d \\\\", "\\midrule",
        "0 & u \\\\", "\\bottomrule", "\\end\x7btabular\x7d",
        "\\end\x7btable\x7d", noteLine] ∧
    "\\label\x7btab:x\x7d" ∉
      ["\\begin\x7btable*\x7d[h]", "\\centering", "\\small",
        "\\begin\x7btabular\x7d\x7bcc\x7d", "\\toprule",
        " & \\multicolumn\x7b1\x7d\x7bc\x7d\x7ba\x7d \\\\", "\\midrule",
        "0 & u \\\\", "\\bottomrule", "\\end\x7btabular\x7d",
        "\\end\x7btable\x7d", noteLine] := by
  exact ⟨rfl, by decide⟩

/-- C9 counterexample: with `row_id_field = "id"` and mixed presence
(`dataC9`: record 0 lacks the field, record 1 has `id = "X"`), the claim
says the labels should be `[0, "X"]`; the code instead indexes the
collected id list positionally and assigns `["X", 1]`. -/
theorem c9_counterexample :
    recordLabels (some "id") dataC9 =
      [.scalar (.vStr "X"), .scalar (.vInt 1)] ∧
    recordLabels (some "id") dataC9 ≠
      [.scalar (.vInt 0), .scalar (.vStr "X")] := by
  refine ⟨rfl, ?_⟩
  intro h
  rw [show recordLabels (some "id") dataC9 =
        [.scalar (.vStr "X"), .scalar (.vInt 1)] from rfl] at h
  exact absurd h (by simp)

/-! ### C7: header spans partition each level -/

/-- Widths accumulated by the span loop: starting with `n` copies of `cur`
already counted, the produced widths sum to `n` plus the remaining
labels. -/
theorem spansLoop_sum (vs : List String) :
    ∀ (v : String) (n : Nat),
      ((spansLoop v n vs).map Prod.snd).sum = n + vs.length := by
  induction vs with
  | nil => intro v n; simp [spansLoop]
  | cons x xs ih =>
      intro v n
      by_cases h : (x == v) = true
      · simp only [spansLoop, h, if_true]
        rw [ih]
        simp
        omega
      · simp only [spansLoop, h, if_false]
        simp [ih]
        omega

/-- Replaying each span's label `width` times reproduces the label
sequence: the spans are contiguous and cover every column exactly once. -/
theorem spansLoop_flatten (vs : List String) :
    ∀ (v : String) (n : Nat),
      (spansLoop v n vs).flatMap (fun p => List.replicate p.2 p.1) =
        List.replicate n v ++ vs := by
  induction vs with
  | nil => intro v n; simp [spansLoop]
  | cons x xs ih =>
      intro v n
      by_cases h : (x == v) = true
      · have hx : x = v := eq_of_beq h
        subst hx
        simp only [spansLoop, h, if_true]
        rw [ih, List.replicate_succ' n x]
        simp
      · simp only [spansLoop, h, if_false]
        simp [ih]

/-- C7: for every hierarchy level of the header, the Header Spans computed
by grouping maximal runs of equal consecutive labels partition that
level's columns exactly: the widths sum to the column count, and
replaying each span's label by its width reproduces the level's label
sequence (every column in exactly one contiguous span). -/
theorem c7_span_partition (cols : List ColPath) (lvl : Nat) :
    ((levelSpans cols lvl).map Prod.snd).sum = cols.length ∧
    (levelSpans cols lvl).flatMap (fun p => List.replicate p.2 p.1) =
      levelLabels cols lvl := by
  have hlen : (levelLabels cols lvl).length = cols.length := by
    simp [levelLabels]
  unfold levelSpans
  cases h : levelLabels cols lvl with
  | nil =>
      rw [h] at hlen
      constructor
      · simpa using hlen
      · simp
  | cons v vs =>
      rw [h] at hlen
      constructor
      · rw [spansLoop_sum vs v 1]
        simp at hlen
        omega
      · rw [spansLoop_flatten vs v 1]
        simp

/-! ### C9 (amended): row labels when the field is present everywhere -/

/-- When every record contains the (truthy) row-id field, the collection
loop gathers exactly each record's own field value, in order. -/
theorem collectRowIds_all_present (fld : String) (hfld : ¬ fld = "")
    (data : List JFields) (h : ∀ r ∈ data, (fieldLookup r fld).isSome) :
    collectRowIds (some fld) data =
      data.map (fun r => (fieldLookup r fld).getD (.scalar (.vInt 0))) := by
  have hbeq : (fld == "") = false := by
    simpa using hfld
  induction data with
  | nil => simp [collectRowIds, hbeq]
  | cons r rest ih =>
      have hr := h r (by simp)
      have hrest : ∀ x ∈ rest, (fieldLookup x fld).isSome :=
        fun x hx => h x (by simp [hx])
      have ihr := ih hrest
      cases hv : fieldLookup r fld with
      | none => rw [hv] at hr; simp at hr
      | some v =>
          simp only [collectRowIds, hbeq, Bool.false_eq_true, if_false]
            at ihr ⊢
          simp [List.filterMap_cons, hv, ihr]

/-- C9 amended: the positional indexing `row_ids[i]` agrees with the
claim's per-record assignment when every record contains the
row-identifier field — each record is then labeled with its own value at
that field.  (With mixed presence the labels misalign; see the
counterexample.) -/
theorem c9_row_labels_all_present (fld : String) (hfld : ¬ fld = "")
    (data : List JFields) (h : ∀ r ∈ data, (fieldLookup r fld).isSome) :
    recordLabels (some fld) data =
      data.map (fun r => (fieldLookup r fld).getD (.scalar (.vInt 0))) := by
  have hids := collectRowIds_all_present fld hfld data h
  have hbeq : (fld == "") = false := by
    simpa using hfld
  have htr : pyTruthyS (some fld) = true := by
    simp [pyTruthyS, hbeq]
  simp only [recordLabels]
  rw [hids]
  refine List.ext_getElem (by simp) ?_
  intro i h1 h2
  have hi : i < data.length := by simpa using h1
  have hilen : i <
      (data.map (fun r => (fieldLookup r fld).getD (.scalar (.vInt 0)))).length := by
    simpa using hi
  simp only [List.getElem_map, List.getElem_range]
  rw [htr, Bool.true_and, if_pos (decide_eq_true hilen)]
  rw [List.getD_eq_getElem _ _ hilen]
  simp

/-- Witness for `c9_row_labels_all_present`: two records that both carry
the field `id`. -/
theorem c9_row_labels_all_present_witness :
    (¬ "id" = "") ∧
    recordLabels (some "id")
        [jF [("id", jS (.vStr "X"))], jF [("id", jS (.vStr "Y"))]] =
      [jF [("id", jS (.vStr "X"))], jF [("id", jS (.vStr "Y"))]].map
        (fun r => (fieldLookup r "id").getD (.scalar (.vInt 0))) :=
  ⟨by decide,
   c9_row_labels_all_present "id" (by decide)
     [jF [("id", jS (.vStr "X"))], jF [("id", jS (.vStr "Y"))]]
     (by intro r hr
         simp only [List.mem_cons, List.not_mem_nil, or_false] at hr
         rcases hr with h | h <;> subst h <;> rfl)⟩

/-! ### C10: table environment open/close mismatch -/

/-- C10: every successful render closes the float environment with
`\end{table}` (followed only by the package note), while the opening line
is `\begin{table*}[position]` when `full_width` is true (the default) and
`\begin{table}[position]` otherwise — so the environment names match only
when `full_width` is false. -/
theorem c10_env_mismatch (data : List JFields) (mrColumns : List String)
    (caption lbl : Option String) (position : String) (floatPrecision : Int)
    (columnFormat : Option String) (captionPosition : String)
    (smallFont fullWidth : Bool) (L : List String)
    (h : jsonToLatexLines data mrColumns caption lbl position floatPrecision
        columnFormat captionPosition smallFont fullWidth = .ok L) :
    (fullWidth = true →
      L.head? = some ("\\begin\x7btable*\x7d[" ++ position ++ "]")) ∧
    (fullWidth = false →
      L.head? = some ("\\begin\x7btable\x7d[" ++ position ++ "]")) ∧
    ∃ pre, L = pre ++ ["\\end\x7btable\x7d", noteLine] := by
  simp only [jsonToLatexLines] at h
  split at h
  · simp at h
  · split at h
    · simp at h
    · injection h with h2
      subst h2
      refine ⟨?_, ?_, ⟨_, rfl⟩⟩
      · intro hf
        subst hf
        simp [beginSeg]
      · intro hf
        subst hf
        simp [beginSeg]

/-- Witness for `c10_env_mismatch` at the concrete render of `dataC1`. -/
theorem c10_env_mismatch_witness :
    (true = true →
      (["\\begin\x7btable*\x7d[h]", "\\centering", "\\small",
        "\\begin\x7btabular\x7d\x7bccc\x7d", "\\toprule",
        " & \\multicolumn\x7b1\x7d\x7bc\x7d\x7ba\x7d & \\multicolumn\x7b1\x7d\x7bc\x7d\x7bb\x7d \\\\",
        "\\midrule", "0 & u & nan \\\\", "1 & nan & v \\\\", "\\bottomrule",
        "\\end\x7btabular\x7d", "\\end\x7btable\x7d",
        noteLine] : List String).head? =
        some ("\\begin\x7btable*\x7d[" ++ "h" ++ "]")) ∧
    (true = false →
      (["\\begin\x7btable*\x7d[h]", "\\centering", "\\small",
        "\\begin\x7btabular\x7d\x7bccc\x7d", "\\toprule",
        " & \\multicolumn\x7b1\x7d\x7bc\x7d\x7ba\x7d & \\multicolumn\x7b1\x7d\x7bc\x7d\x7bb\x7d \\\\",
        "\\midrule", "0 & u & nan \\\\", "1 & nan & v \\\\", "\\bottomrule",
        "\\end\x7btabular\x7d", "\\end\x7btable\x7d",
        noteLine] : List String).head? =
        some ("\\begin\x7btable\x7d[" ++ "h" ++ "]")) ∧
    ∃ pre,
      (["\\begin\x7btable*\x7d[h]", "\\centering", "\\small",
        "\\begin\x7btabular\x7d\x7bccc\x7d", "\\toprule",
        " & \\multicolumn\x7b1\x7d\x7bc\x7d\x7ba\x7d & \\multicolumn\x7b1\x7d\x7bc\x7d\x7bb\x7d \\\\",
        "\\midrule", "0 & u & nan \\\\", "1 & nan & v \\\\", "\\bottomrule",
        "\\end\x7btabular\x7d", "\\end\x7btable\x7d",
        noteLine] : List String) = pre ++ ["\\end\x7btable\x7d", noteLine] :=
  c10_env_mismatch dataC1 [] none none "h" 4 none "bottom" true true _ rfl

/-! ### C8 (amended): caption/label placement -/

/-- C8 amended: in every successful render the caption block — the caption
line followed immediately by the label line when a (truthy) label is
supplied — is emitted exactly once, before the tabular block when the
caption is truthy and `caption_position` lowercases to `top`, after it
when the caption is truthy and the position is anything else, and NOT AT
ALL when the caption is absent or empty: in that case the label is
dropped even if supplied. -/
theorem c8_caption_layout (data : List JFields) (mrColumns : List String)
    (caption lbl : Option String) (position : String) (floatPrecision : Int)
    (columnFormat : Option String) (captionPosition : String)
    (smallFont fullWidth : Bool) (L : List String)
    (h : jsonToLatexLines data mrColumns caption lbl position floatPrecision
        columnFormat captionPosition smallFont fullWidth = .ok L) :
    ∃ body,
      L = beginSeg fullWidth position smallFont
        ++ (if pyTruthyS caption && (pyLower captionPosition == "top") then
              captionSeg (caption.getD "") lbl else [])
        ++ [tabularLine columnFormat (prepOf data mrColumns).sortedCols.length,
            "\\toprule"]
        ++ headerSeg (prepOf data mrColumns).sortedCols
            (prepOf data mrColumns).maxD
        ++ body
        ++ ["\\bottomrule", "\\end\x7btabular\x7d"]
        ++ (if pyTruthyS caption && !(pyLower captionPosition == "top") then
              captionSeg (caption.getD "") lbl else [])
        ++ ["\\end\x7btable\x7d", noteLine] := by
  simp only [jsonToLatexLines] at h
  split at h
  · simp at h
  · split at h
    · simp at h
    · rename_i matrix heq
      injection h with h2
      subst h2
      exact ⟨bodyLinesFrom matrix, rfl⟩

/-- Witness for `c8_caption_layout` at a concrete render with caption
`Cap`, label `tab:x` and `caption_position = "top"`. -/
theorem c8_caption_layout_witness :
    ∃ body,
      (["\\begin\x7btable*\x7d[h]", "\\centering", "\\small",
        "\\caption\x7bCap\x7d", "\\label\x7btab:x\x7d",
        "\\begin\x7btabular\x7d\x7bcc\x7d", "\\toprule",
        " & \\multicolumn\x7b1\x7d\x7bc\x7d\x7ba\x7d \\\\", "\\midrule",
        "0 & u \\\\", "\\bottomrule", "\\end\x7btabular\x7d",
        "\\end\x7btable\x7d", noteLine] : List String) =
      beginSeg true "h" true
        ++ (if pyTruthyS (some "Cap") && (pyLower "top" == "top") then
              captionSeg ((some "Cap").getD "") (some "tab:x") else [])
        ++ [tabularLine none (prepOf dataC8 []).sortedCols.length, "\\toprule"]
        ++ headerSeg (prepOf dataC8 []).sortedCols (prepOf dataC8 []).maxD
        ++ body
        ++ ["\\bottomrule", "\\end\x7btabular\x7d"]
        ++ (if pyTruthyS (some "Cap") && !(pyLower "top" == "top") then
              captionSeg ((some "Cap").getD "") (some "tab:x") else [])
        ++ ["\\end\x7btable\x7d", noteLine] :=
  c8_caption_layout dataC8 [] (some "Cap") (some "tab:x") "h" 4 none "top"
    true true _ (by rfl)

/-! ### C2 (amended): sibling-level ordering invariant -/

/-- Lookup in the empty ordered dict. -/
theorem aFind_nil {κ α : Type} [BEq κ] (k : κ) :
    aFind ([] : List (κ × α)) k = none := rfl

/-- Lookup steps through a cons cell. -/
theorem aFind_cons {κ α : Type} [BEq κ] (k0 : κ) (v0 : α) (l : List (κ × α))
    (k : κ) :
    aFind ((k0, v0) :: l) k = if k0 == k then some v0 else aFind l k := by
  cases h : k0 == k <;> simp [aFind, List.find?, h]

/-- Lookup distributes over append, first list winning. -/
theorem aFind_append {κ α : Type} [BEq κ] (l1 l2 : List (κ × α)) (k : κ) :
    aFind (l1 ++ l2) k = (aFind l1 k).or (aFind l2 k) := by
  induction l1 with
  | nil => simp [aFind_nil]
  | cons e l ih =>
      obtain ⟨k0, v0⟩ := e
      rw [List.cons_append, aFind_cons, aFind_cons]
      cases h : k0 == k <;> simp [h, ih]

/-- Insert-if-absent never loses an existing binding. -/
theorem poIns_some (po : PO) (p : ColPath) (kv : Nat × Nat) (q : ColPath)
    (v : Nat × Nat) (h : aFind po q = some v) :
    aFind (poInsertIfAbsent po p kv) q = some v := by
  unfold poInsertIfAbsent
  split
  · exact h
  · rw [aFind_append, h]
    rfl

/-- Insert-if-absent on a fresh path records exactly the given key. -/
theorem poIns_self (po : PO) (p : ColPath) (kv : Nat × Nat)
    (h : aFind po p = none) :
    aFind (poInsertIfAbsent po p kv) p = some kv := by
  unfold poInsertIfAbsent
  split
  · rename_i v hv
    rw [h] at hv
    exact absurd hv (by simp)
  · rw [aFind_append, h, aFind_cons]
    simp

/-- Insert-if-absent at another path keeps a fresh path fresh. -/
theorem poIns_none (po : PO) (p : ColPath) (kv : Nat × Nat) (q : ColPath)
    (hq : aFind po q = none) (hne : ¬ q = p) :
    aFind (poInsertIfAbsent po p kv) q = none := by
  unfold poInsertIfAbsent
  split
  · exact hq
  · rw [aFind_append, hq, aFind_cons]
    have hpq : (p == q) = false :=
      beq_eq_false_iff_ne.mpr (fun hh => hne hh.symm)
    simp [hpq, aFind_nil]

mutual
/-- The extraction of one value never loses an existing `path_order`
binding (only insert-if-absent writes happen). -/
theorem extractV_po_mono (v : JVal) (cp : ColPath) (cols : List ColPath)
    (flat : Flat) (po : PO) (q : ColPath) (val : Nat × Nat)
    (h : aFind po q = some val) :
    aFind (extractV v cp cols flat po).2.2 q = some val := by
  cases v with
  | scalar s => simpa [extractV] using h
  | obj sub =>
      simpa [extractV] using
        extractF_po_mono sub 0 cp cols flat po q val h

/-- The extraction of a field list never loses an existing `path_order`
binding. -/
theorem extractF_po_mono (fs : JFields) (idx : Nat) (pfx : ColPath)
    (cols : List ColPath) (flat : Flat) (po : PO) (q : ColPath)
    (val : Nat × Nat) (h : aFind po q = some val) :
    aFind (extractF fs idx pfx cols flat po).2.2 q = some val := by
  cases fs with
  | nil => simpa [extractF] using h
  | cons k v rest =>
      simp only [extractF]
      exact extractF_po_mono rest (idx + 1) pfx _ _ _ q val
        (extractV_po_mono v (pfx ++ [k]) cols flat _ q val
          (poIns_some po (pfx ++ [k]) (pfx.length, idx) q val h))
end

mutual
/-- Extraction under prefix `cp` only writes `path_order` at proper
extensions of `cp`: any path that is not `cp ++ t` for nonempty `t`
stays unbound. -/
theorem extractV_po_fresh (v : JVal) (cp : ColPath) (cols : List ColPath)
    (flat : Flat) (po : PO) (q : ColPath) (hq : aFind po q = none)
    (hne : ∀ t : List String, ¬ t = [] → ¬ q = cp ++ t) :
    aFind (extractV v cp cols flat po).2.2 q = none := by
  cases v with
  | scalar s => simpa [extractV] using hq
  | obj sub =>
      simp only [extractV]
      exact extractF_po_fresh sub 0 cp cols flat po q hq
        (fun k t hqe => hne (k :: t) (by simp) hqe)

/-- Extraction of a field list under prefix `pfx` only writes
`path_order` at paths of the form `pfx ++ k :: t`. -/
theorem extractF_po_fresh (fs : JFields) (idx : Nat) (pfx : ColPath)
    (cols : List ColPath) (flat : Flat) (po : PO) (q : ColPath)
    (hq : aFind po q = none)
    (hne : ∀ (k : String) (t : List String), ¬ q = pfx ++ k :: t) :
    aFind (extractF fs idx pfx cols flat po).2.2 q = none := by
  cases fs with
  | nil => simpa [extractF] using hq
  | cons k v rest =>
      simp only [extractF]
      have h1 : aFind (poInsertIfAbsent po (pfx ++ [k]) (pfx.length, idx)) q =
          none :=
        poIns_none po (pfx ++ [k]) (pfx.length, idx) q hq (hne k [])
      have h2 : aFind (extractV v (pfx ++ [k]) cols flat
          (poInsertIfAbsent po (pfx ++ [k]) (pfx.length, idx))).2.2 q = none :=
        extractV_po_fresh v (pfx ++ [k]) cols flat _ q h1
          (fun t ht hqe => hne k t (by simpa [List.append_assoc] using hqe))
      exact extractF_po_fresh rest (idx + 1) pfx _ _ _ q h2 hne
end

/-- The key recorded for the `j`-th sibling: if `kj` is the key at
position `j` of `fs`, no earlier sibling repeats it, and the path
`pfx ++ [kj]` is still unbound, then after extracting `fs` (whose first
key has sibling index `idx`) that path is bound to
`(pfx.length, idx + j)` — the `(depth, sibling index)` pair the source
stores at first introduction. -/
theorem extractF_po_keyAt (fs : JFields) :
    ∀ (idx : Nat) (pfx : ColPath) (cols : List ColPath) (flat : Flat)
      (po : PO) (j : Nat) (kj : String),
      keyAt fs j = some kj →
      (∀ j' : Nat, j' < j → ¬ keyAt fs j' = some kj) →
      aFind po (pfx ++ [kj]) = none →
      aFind (extractF fs idx pfx cols flat po).2.2 (pfx ++ [kj]) =
        some (pfx.length, idx + j) := by
  cases fs with
  | nil =>
      intro idx pfx cols flat po j kj hkey hdup hfresh
      simp [keyAt] at hkey
  | cons k v rest =>
      intro idx pfx cols flat po j kj hkey hdup hfresh
      cases j with
      | zero =>
          have hk : k = kj := by simpa [keyAt] using hkey
          subst hk
          simp only [extractF]
          exact extractF_po_mono rest (idx + 1) pfx _ _ _ (pfx ++ [k]) _
            (extractV_po_mono v (pfx ++ [k]) cols flat _ (pfx ++ [k]) _
              (poIns_self po (pfx ++ [k]) (pfx.length, idx) hfresh))
      | succ j' =>
          have hkrest : keyAt rest j' = some kj := by
            simpa [keyAt] using hkey
          have hkne : ¬ k = kj := by
            have h0 := hdup 0 (Nat.succ_pos j')
            simpa [keyAt] using h0
          have hdup' : ∀ j'' : Nat, j'' < j' → ¬ keyAt rest j'' = some kj := by
            intro j'' hj''
            have := hdup (j'' + 1) (by omega)
            simpa [keyAt] using this
          simp only [extractF]
          have hqp : ¬ (pfx ++ [kj]) = pfx ++ [k] := by
            intro he
            have h1 : ([kj] : List String) = [k] := List.append_cancel_left he
            exact hkne (by simpa using h1.symm)
          have h1 : aFind (poInsertIfAbsent po (pfx ++ [k]) (pfx.length, idx))
              (pfx ++ [kj]) = none :=
            poIns_none po (pfx ++ [k]) (pfx.length, idx) (pfx ++ [kj]) hfresh hqp
          have h2 : aFind (extractV v (pfx ++ [k]) cols flat
              (poInsertIfAbsent po (pfx ++ [k]) (pfx.length, idx))).2.2
              (pfx ++ [kj]) = none := by
            refine extractV_po_fresh v (pfx ++ [k]) cols flat _ (pfx ++ [kj])
              h1 ?_
            intro t ht hqe
            have hq2 : pfx ++ [kj] = pfx ++ (k :: t) := by
              simpa [List.append_assoc] using hqe
            have h3 : ([kj] : List String) = k :: t :=
              List.append_cancel_left hq2
            injection h3 with h4 h5
            exact hkne h4.symm
          have harith : idx + (j' + 1) = (idx + 1) + j' := by omega
          rw [harith]
          exact extractF_po_keyAt rest (idx + 1) pfx _ _ _ j' kj
            hkrest hdup' h2

/-- C2 amended (sibling-level invariant): if paths `A = pfx ++ [ki]` and
`B = pfx ++ [kj]` are first introduced as sibling keys of the same
nested mapping, with `ki` at a strictly smaller sibling position than
`kj` and neither repeated earlier among the siblings nor already known
to `path_order`, then A's recorded ordering key sorts strictly before
B's.  (Across depths or across records the claimed global invariant
fails — see the counterexample.) -/
theorem c2_sibling_order (fs : JFields) (idx : Nat) (pfx : ColPath)
    (cols : List ColPath) (flat : Flat) (po : PO) (i j : Nat)
    (ki kj : String) (hij : i < j)
    (hki : keyAt fs i = some ki) (hkj : keyAt fs j = some kj)
    (hdupi : ∀ i' : Nat, i' < i → ¬ keyAt fs i' = some ki)
    (hdupj : ∀ j' : Nat, j' < j → ¬ keyAt fs j' = some kj)
    (hfreshi : aFind po (pfx ++ [ki]) = none)
    (hfreshj : aFind po (pfx ++ [kj]) = none) :
    aFind (extractF fs idx pfx cols flat po).2.2 (pfx ++ [ki]) =
      some (pfx.length, idx + i) ∧
    aFind (extractF fs idx pfx cols flat po).2.2 (pfx ++ [kj]) =
      some (pfx.length, idx + j) ∧
    keyLE (some (pfx.length, idx + i)) (some (pfx.length, idx + j)) = true ∧
    keyLE (some (pfx.length, idx + j)) (some (pfx.length, idx + i)) = false := by
  refine ⟨extractF_po_keyAt fs idx pfx cols flat po i ki hki hdupi hfreshi,
          extractF_po_keyAt fs idx pfx cols flat po j kj hkj hdupj hfreshj,
          ?_, ?_⟩
  · simp only [keyLE, Bool.or_eq_true, Bool.and_eq_true, Nat.blt_eq,
      Nat.ble_eq, beq_iff_eq]
    exact Or.inr ⟨trivial, by omega⟩
  · rw [Bool.eq_false_iff]
    intro hcon
    simp only [keyLE, Bool.or_eq_true, Bool.and_eq_true, Nat.blt_eq,
      Nat.ble_eq, beq_iff_eq] at hcon
    rcases hcon with h1 | ⟨h1, h2⟩
    · omega
    · omega

/-- Witness for `c2_sibling_order`: the sibling keys `a` (index 0) and
`b` (index 1) of one record, starting from an empty `path_order`. -/
theorem c2_sibling_order_witness :
    (0 < 1) ∧
    (aFind (extractF (jF [("a", jS (.vInt 1)), ("b", jS (.vInt 2))])
        0 [] [] [] []).2.2 ([] ++ ["a"]) = some (List.length ([] : ColPath), 0 + 0) ∧
     aFind (extractF (jF [("a", jS (.vInt 1)), ("b", jS (.vInt 2))])
        0 [] [] [] []).2.2 ([] ++ ["b"]) = some (List.length ([] : ColPath), 0 + 1) ∧
     keyLE (some (List.length ([] : ColPath), 0 + 0))
       (some (List.length ([] : ColPath), 0 + 1)) = true ∧
     keyLE (some (List.length ([] : ColPath), 0 + 1))
       (some (List.length ([] : ColPath), 0 + 0)) = false) :=
  ⟨by omega,
   c2_sibling_order (jF [("a", jS (.vInt 1)), ("b", jS (.vInt 2))])
     0 [] [] [] [] 0 1 "a" "b" (by omega) (by rfl) (by rfl)
     (fun i' h => absurd h (Nat.not_lt_zero i'))
     (fun j' hj => by
        have h0 : j' = 0 := by omega
        subst h0
        decide)
     (by rfl) (by rfl)⟩
